import Mathlib

/-!
Shallow embedding of `train.py` from the flowers-classification repository.

The script wraps a transfer-learning loop: it loads a labelled image folder,
builds a pretrained backbone with a fresh classifier head, trains the head,
periodically evaluates on the validation split, and checkpoints after every
epoch, copying the checkpoint to a best-model file on improvement.

Modelling conventions:
* Rational numbers stand in for the floating-point loss/accuracy values; all
  control flow of the script is independent of rounding, so this is faithful
  for the control-flow and bookkeeping properties proved here.
* The numerical work delegated to the framework (forward pass, backward pass,
  optimizer update) carries no information used by the script's control flow,
  so the training loop is parameterised by an oracle `valAcc k` giving the
  (summed, per-batch-mean) accuracy returned by the k-th validation pass of
  the run, exactly the value `validation` returns for the loop's purposes.
* File-system effects are tracked as the list of path strings written by the
  run (the run starts in a fresh working directory; `mkdir -p model_dir` has
  been performed by `main` before training).  Path strings are compared
  verbatim, matching the behaviour of the script for the directories it uses.
* A Python `UnboundLocalError` (reading `accuracy` at epoch end before any
  validation pass assigned it) and a `FileNotFoundError` (copying a missing
  source file) are modelled as explicit error states that abort the run.
* The train loop appends an `Event` for each observable action: an optimizer
  step (recording the module mode it ran under), a validation pass (recording
  the module mode and whether gradient tracking was enabled), the epoch-end
  best comparison, a checkpoint save, a file copy; `main` additionally records
  directory creation, data loading and model construction.
-/

namespace FlowersTrain

/-- Join of a directory and a file name as performed by the script's path
joins: an empty directory leaves the name unchanged, otherwise the two parts
are separated by a slash.  Paths are not normalised (the script never passes
`.` segments for the runs considered here). -/
def ospJoin (dir file : String) : String :=
  if dir = "" then file else dir ++ "/" ++ file

/-- Maximum of a list in a linear order, `none` on the empty list. -/
def listMax {α : Type _} [LinearOrder α] : List α → Option α
  | [] => none
  | x :: xs =>
    match listMax xs with
    | none => some x
    | some m => some (max x m)

/-- Index of the first occurrence of the maximum of a list (the index
returned by the framework's `max(dim=1)` reduction), `0` on the empty list. -/
def argmaxIdx {α : Type _} [LinearOrder α] : List α → ℕ
  | [] => 0
  | x :: xs =>
    match listMax xs with
    | none => 0
    | some m => if x < m then argmaxIdx xs + 1 else 0

/-- One validation sample: the model's output scores for that sample (one per
class; the script exponentiates them into probabilities before taking the
per-row maximum, which does not change the maximising index because the
exponential is strictly monotone, see `argmaxIdx_map_of_strictMono`) and the
true label index. -/
structure Sample where
  output : List ℚ
  label : ℕ
deriving DecidableEq

/-- Number of samples of a batch whose top-1 prediction equals the label
(the sum of the `equality` byte tensor of `validation`). -/
def batchCorrect (b : List Sample) : ℕ :=
  (b.filter (fun s => argmaxIdx s.output == s.label)).length

/-- Mean of the `equality` tensor of one batch: the fraction of samples of
the batch whose top-1 prediction equals the label. -/
def batchAccuracy (b : List Sample) : ℚ :=
  (batchCorrect b : ℚ) / (b.length : ℚ)

/-- The `validation` function of `train.py`: folds over the validation
loader, summing the per-batch criterion loss into `test_loss` and the
per-batch mean correctness into `accuracy`, and returns both sums. -/
def validation (criterion : List Sample → ℚ) (testloader : List (List Sample)) : ℚ × ℚ :=
  testloader.foldl (fun acc b => (acc.1 + criterion b, acc.2 + batchAccuracy b)) (0, 0)

/-- The validation loss printed by the training loop:
`validation_loss / len(validloader)`. -/
def loggedValidationLoss (criterion : List Sample → ℚ) (validloader : List (List Sample)) : ℚ :=
  (validation criterion validloader).1 / (validloader.length : ℚ)

/-- The validation accuracy printed by the training loop:
`(accuracy / len(validloader)) * 100`. -/
def loggedValidationAccuracy (criterion : List Sample → ℚ) (validloader : List (List Sample)) : ℚ :=
  ((validation criterion validloader).2 / (validloader.length : ℚ)) * 100

/-- Arithmetic mean of a list of rationals (`0` for the empty list, matching
the totalised division of `ℚ`). -/
def listMean (l : List ℚ) : ℚ := l.sum / (l.length : ℚ)

/-- Lexicographic comparison of two character lists by code point: the
string order `sorted` uses on the class subdirectory names, written on the
character lists so that it evaluates by plain reduction. -/
def strLeListB : List Char → List Char → Bool
  | [], _ => true
  | _ :: _, [] => false
  | c :: cs, d :: ds =>
    if c.toNat < d.toNat then true
    else if d.toNat < c.toNat then false
    else strLeListB cs ds

/-- The class-to-index mapping produced by the image-folder dataset: the
class subdirectory names are sorted and each is paired with its position. -/
def classToIdx (classes : List String) : List (String × ℕ) :=
  ((List.insertionSort (fun a b => strLeListB a.data b.data = true) classes).enum).map
    (fun p => (p.2, p.1))

/-- The `load_data_folder` function of `train.py`, restricted to the data the
rest of the script consumes: it derives the class-to-index mapping from the
subdirectory names of the `train` split.  (The augmentation and normalisation
transforms and the batch iterators are framework objects whose contents the
script's control flow never inspects; the loop below is parameterised by the
batch counts and validation results they induce.) -/
def load_data_folder (trainClasses : List String) : List (String × ℕ) :=
  classToIdx trainClasses

/-- Shape of the last child module of a torchvision backbone, as dispatched
on by `build_model`: either a single linear layer or a sequential block
whose first element is linear; either way it determines the input feature
width of the new head. -/
inductive LastChild
  | linearChild (inFeatures : ℕ)
  | seqChild (firstInFeatures : ℕ)
deriving DecidableEq

/-- The `input_features` discovery of `build_model` (lines 163-166): the
in-feature width of the last child if it is linear, otherwise the in-feature
width of the first element of the sequential block. -/
def input_features : LastChild → ℕ
  | LastChild.linearChild f => f
  | LastChild.seqChild f => f

/-- Last-child shape of each supported torchvision backbone: the VGG models
end in a sequential classifier whose first linear layer has 25088 input
features, DenseNet-121 ends in a single linear layer with 1024 input
features. -/
def archLastChild : String → Option LastChild
  | "vgg16" => some (LastChild.seqChild 25088)
  | "vgg13" => some (LastChild.seqChild 25088)
  | "densenet121" => some (LastChild.linearChild 1024)
  | _ => none

/-- Input feature width that the discovery of `build_model` finds for each
supported backbone. -/
def archInputFeatures : String → ℕ
  | "vgg16" => 25088
  | "vgg13" => 25088
  | "densenet121" => 1024
  | _ => 0

/-- A pretrained torchvision network as `build_model` receives it: the
gradient-tracking flags of its feature-extraction parameters and of its
original head parameters, and the shape of its last child module. -/
structure PretrainedNet where
  featureParams : List Bool
  headParams : List Bool
  lastChild : LastChild
deriving DecidableEq

/-- What `models.<arch>(pretrained=True)` guarantees about the returned
network: its last child has the shape of that architecture and every
parameter is created with gradient tracking enabled. -/
def IsTorchvisionModel (arch : String) (net : PretrainedNet) : Prop :=
  archLastChild arch = some net.lastChild ∧
  net.featureParams.all (fun b => b) = true ∧
  net.headParams.all (fun b => b) = true

/-- A layer of the new classifier head. -/
inductive Layer
  | linear (inFeatures outFeatures : ℕ)
  | relu
  | dropout (p : ℚ)
  | logSoftmax (dim : ℕ)
deriving DecidableEq

/-- A classifier module: named layers in order, as in the `OrderedDict`
passed to the sequential container. -/
abbrev Classifier := List (String × Layer)

/-- The classifier head constructed by `build_model` (lines 171-177). -/
def buildClassifier (inF hiddenUnits : ℕ) : Classifier :=
  [(("fc1"), Layer.linear inF hiddenUnits),
   (("relu"), Layer.relu),
   (("dropout"), Layer.dropout (1/2)),
   (("fc2"), Layer.linear hiddenUnits 102),
   (("output"), Layer.logSoftmax 1)]

/-- Output dimensionality of a classifier module: the out-feature width of
its last linear layer (`0` if it has none). -/
def classifierOutDim (c : Classifier) : ℕ :=
  (c.foldl (fun acc nl =>
    match nl.2 with
    | Layer.linear _ o => some o
    | _ => acc) none).getD 0

/-- The model as it leaves `build_model`: the frozen backbone parameter
flags, the new classifier module, the gradient flags of the new classifier's
parameters, and the class-to-index mapping attached to the model object. -/
structure TModel where
  backboneParams : List Bool
  classifier : Classifier
  classifierParams : List Bool
  class_idx_mapping : List (String × ℕ)
deriving DecidableEq

/-- Gradient-tracking flags of the parameters of a freshly constructed
linear layer: weight and bias, both created with gradient tracking on. -/
def freshLinearParams : List Bool := [true, true]

/-- The `build_model` function of `train.py`: discovers the input feature
width from the backbone's last child, disables gradient tracking on every
existing parameter (the loop at lines 168-169 runs before the head is
replaced, so it covers the features and the original head, the latter being
discarded by the replacement), then attaches the new classifier head (whose
fc1 and fc2 layers carry freshly created, gradient-enabled parameters) and
the class-to-index mapping. -/
def build_model (net : PretrainedNet) (hidden_units : ℕ)
    (class_idx_mapping : List (String × ℕ)) : TModel :=
  { backboneParams := net.featureParams.map (fun _ => false),
    classifier := buildClassifier (input_features net.lastChild) hidden_units,
    classifierParams := freshLinearParams ++ freshLinearParams,
    class_idx_mapping := class_idx_mapping }

/-- The parameter set handed to the Adam optimizer in `main`
(line 216): exactly `model.classifier.parameters()`. -/
def optimizerParams (m : TModel) : List Bool := m.classifierParams

/-- Module mode of the model object (`model.train()` / `model.eval()`). -/
inductive Mode
  | train
  | eval
deriving DecidableEq

/-- Value stored under one key of a checkpoint dictionary.  The full state
dictionary and the optimizer state are framework blobs whose contents the
script never inspects, so they are single-constructor tokens here. -/
inductive CkptValue
  | natV (n : ℕ)
  | strV (s : String)
  | ratV (q : ℚ)
  | mapV (m : List (String × ℕ))
  | moduleV (c : Classifier)
  | stateDictV
  | optStateV
deriving DecidableEq

/-- A checkpoint dictionary: ordered key/value pairs, as a Python dict. -/
abbrev Checkpoint := List (String × CkptValue)

/-- Configuration of one training run: the arguments `train` receives from
`main` together with the data-dependent oracle described in the header
(number of train batches per epoch, `len(validloader)`, and the accuracy sum
returned by the k-th validation pass of the run). -/
structure TrainConfig where
  epochs : ℕ
  printEvery : ℕ
  nBatches : ℕ
  nValid : ℕ
  valAcc : ℕ → ℚ
  modelDir : String
  arch : String

/-- The checkpoint dictionary built at lines 83-91 of `train.py`: note that
the `epoch` field stores the total epoch count and `best_accuracy` stores
the running best divided by `len(validloader)` times 100. -/
def mkCheckpoint (m : TModel) (cfg : TrainConfig) (bestAccuracy : ℚ) : Checkpoint :=
  [(("epoch"), CkptValue.natV cfg.epochs),
   (("classifier"), CkptValue.moduleV m.classifier),
   (("state_dict"), CkptValue.stateDictV),
   (("optimizer"), CkptValue.optStateV),
   (("class_idx_mapping"), CkptValue.mapV m.class_idx_mapping),
   (("arch"), CkptValue.strV cfg.arch),
   (("best_accuracy"), CkptValue.ratV (bestAccuracy / (cfg.nValid : ℚ) * 100))]

/-- Modelled from the spec: the checkpoint schema of section 6 — epoch
count, classifier module description, full state dictionary, optimizer state
dictionary, class-to-index mapping, architecture name string, best accuracy
percentage — written as the corresponding dictionary keys. -/
def checkpointSchema : List String :=
  [("epoch"), ("classifier"), ("state_dict"), ("optimizer"),
   ("class_idx_mapping"), ("arch"), ("best_accuracy")]

/-- The class-to-index mapping recorded in a checkpoint. -/
def ckptMapping (c : Checkpoint) : List (String × ℕ) :=
  match c.lookup ("class_idx_mapping") with
  | some (CkptValue.mapV m) => m
  | _ => []

/-- Output dimensionality of the classifier module recorded in a
checkpoint. -/
def ckptHeadOutDim (c : Checkpoint) : ℕ :=
  match c.lookup ("classifier") with
  | some (CkptValue.moduleV cl) => classifierOutDim cl
  | _ => 0

/-- Run-aborting errors of the training loop. -/
inductive TrainErr
  | unboundAccuracy
  | copySrcMissing (src : String)
deriving DecidableEq

/-- Observable actions of a run, in program order. -/
inductive Event
  | optStep (mode : Mode)
  | valPass (mode : Mode) (gradEnabled : Bool) (acc : ℚ)
  | epochEnd (acc : ℚ) (isBest : Bool)
  | save (path : String) (ckpt : Checkpoint) (isBest : Bool)
  | copy (src dst : String)
  | mkdirP (dir : String)
  | loadData (dir : String)
  | buildModelCall (arch : String)
  | usageExit
deriving DecidableEq

/-- State of the training loop. -/
structure TrainState where
  steps : ℕ
  valCount : ℕ
  accuracy : Option ℚ
  bestAccuracy : ℚ
  mode : Mode
  fs : List String
  events : List Event
  error : Option TrainErr
deriving DecidableEq

/-- State at line 45 of `train.py`: zero steps, no validation pass yet (the
Python local `accuracy` is unassigned), best accuracy 0, the model put into
training mode at line 40, an empty set of files written, no events yet. -/
def trainInit : TrainState :=
  { steps := 0, valCount := 0, accuracy := none, bestAccuracy := 0,
    mode := Mode.train, fs := [], events := [], error := none }

/-- One iteration of the inner batch loop (lines 48-79): the step counter is
incremented, an optimizer step runs under the current module mode, and when
the cumulative step count is a multiple of `print_every` the model is put in
evaluation mode, the validation pass runs with gradient tracking disabled,
its accuracy sum is bound to the `accuracy` local, and the model is put back
into training mode. -/
def oneBatch (cfg : TrainConfig) (st : TrainState) : TrainState :=
  if (st.steps + 1) % cfg.printEvery = 0 then
    { st with
      steps := st.steps + 1
      mode := Mode.train
      valCount := st.valCount + 1
      accuracy := some (cfg.valAcc st.valCount)
      events := st.events ++
        [Event.optStep st.mode, Event.valPass Mode.eval false (cfg.valAcc st.valCount)] }
  else
    { st with
      steps := st.steps + 1
      events := st.events ++ [Event.optStep st.mode] }

/-- The `save_checkpoint` function of `train.py` (lines 93-96): the state is
saved to `os.path.join(model_dir, filename)`, and when `is_best` holds the
file named by the bare `filename` — resolved against the working directory,
not against `model_dir` — is copied to `os.path.join(model_dir,
"model_best.pth")`; if that source path has not been written the copy
raises, aborting the run. -/
def save_checkpoint (modelDir : String) (ckpt : Checkpoint) (isBest : Bool)
    (st : TrainState) : TrainState :=
  let path := ospJoin modelDir ("checkpoint.pth")
  let st1 : TrainState :=
    { st with events := st.events ++ [Event.save path ckpt isBest], fs := path :: st.fs }
  if isBest then
    if ("checkpoint.pth") ∈ st1.fs then
      { st1 with
        events := st1.events ++
          [Event.copy ("checkpoint.pth") (ospJoin modelDir ("model_best.pth"))]
        fs := ospJoin modelDir ("model_best.pth") :: st1.fs }
    else
      { st1 with error := some (TrainErr.copySrcMissing ("checkpoint.pth")) }
  else st1

/-- Epoch-end bookkeeping (lines 81-91): reading the `accuracy` local raises
if no validation pass ever assigned it; otherwise the is-best comparison and
the best-accuracy update run and the checkpoint is saved. -/
def epochEndStep (m : TModel) (cfg : TrainConfig) (st : TrainState) : TrainState :=
  match st.accuracy with
  | none => { st with error := some TrainErr.unboundAccuracy }
  | some a =>
    let isBest : Bool := decide (st.bestAccuracy < a)
    let best : ℚ := max a st.bestAccuracy
    save_checkpoint cfg.modelDir (mkCheckpoint m cfg best) isBest
      { st with bestAccuracy := best, events := st.events ++ [Event.epochEnd a isBest] }

/-- Run `n` iterations of the inner batch loop. -/
def runBatches (cfg : TrainConfig) : ℕ → TrainState → TrainState
  | 0, st => st
  | n + 1, st => runBatches cfg n (oneBatch cfg st)

/-- One epoch of the loop at lines 45-91: the per-epoch batches followed by
the epoch-end bookkeeping.  An aborted run performs nothing further. -/
def runEpoch (m : TModel) (cfg : TrainConfig) (st : TrainState) : TrainState :=
  if st.error.isSome then st
  else epochEndStep m cfg (runBatches cfg cfg.nBatches st)

/-- Run `n` epochs. -/
def runEpochs (m : TModel) (cfg : TrainConfig) : ℕ → TrainState → TrainState
  | 0, st => st
  | n + 1, st => runEpochs m cfg n (runEpoch m cfg st)

/-- The `train` function of `train.py`. -/
def train (m : TModel) (cfg : TrainConfig) : TrainState :=
  runEpochs m cfg cfg.epochs trainInit

/-- Event is an epoch-end bookkeeping record. -/
def isEpochEndEvent : Event → Bool
  | Event.epochEnd _ _ => true
  | _ => false

/-- Event is a checkpoint save. -/
def isSaveEvent : Event → Bool
  | Event.save _ _ _ => true
  | _ => false

/-- The epoch-end records of a trace, in order. -/
def epochEndsOf (l : List Event) : List Event := l.filter isEpochEndEvent

/-- The checkpoint saves of a trace, in order. -/
def savesOf (l : List Event) : List Event := l.filter isSaveEvent

/-- Mode discipline of one event: optimizer steps run in training mode,
validation passes run in evaluation mode with gradient tracking disabled. -/
def modeDisciplineB : Event → Bool
  | Event.optStep mo => mo == Mode.train
  | Event.valPass mo g _ => (mo == Mode.eval) && (g == false)
  | _ => true

/-- Well-formedness of a save event for a run: the checkpoint is written to
`<model_dir>/checkpoint.pth` and its keys are exactly the schema fields. -/
def saveWFB (modelDir : String) : Event → Bool
  | Event.save path ckpt _ =>
      (path == ospJoin modelDir ("checkpoint.pth")) &&
      (ckpt.map Prod.fst == checkpointSchema)
  | _ => true

/-- Class-count shape of a save event: the recorded mapping has one entry
per train-class subdirectory and the recorded head has output width 102. -/
def saveClassCountB (nClasses : ℕ) : Event → Bool
  | Event.save _ ckpt _ =>
      ((ckptMapping ckpt).length == nClasses) && (ckptHeadOutDim ckpt == 102)
  | _ => true

/-- Parsed command-line arguments of `main`. -/
structure Args where
  data_dir : String
  arch : String
  hidden_units : ℕ
  learning_rate : ℚ
  epochs : ℕ
  gpu : Bool
  model_dir : String

/-- The enumerated `--arch` choices of `main` (line 189). -/
def VALID_ARCH_CHOICES : List String := [("vgg16"), ("vgg13"), ("densenet121")]

/-- The training configuration `main` passes to `train` (lines 224-233):
the parsed epochs and model directory, and `print_every` fixed at 20. -/
def cfgOfArgs (args : Args) (nBatches nValid : ℕ) (valAcc : ℕ → ℚ) : TrainConfig :=
  { epochs := args.epochs, printEvery := 20, nBatches := nBatches, nValid := nValid,
    valAcc := valAcc, modelDir := args.model_dir, arch := args.arch }

/-- The `main` function of `train.py`: the argument parser rejects an
`--arch` value outside the enumerated choices with a usage error, exiting
before anything else runs; otherwise the model directory is created, the
data folder is loaded, the model is built, and the training loop runs.  The
result is the full event trace of the process and, when parsing succeeded,
the final loop state (whose events form the tail of the trace). -/
def mainRun (args : Args) (net : PretrainedNet) (trainClasses : List String)
    (nBatches nValid : ℕ) (valAcc : ℕ → ℚ) : List Event × Option TrainState :=
  if args.arch ∈ VALID_ARCH_CHOICES then
    let mapping := load_data_folder trainClasses
    let m := build_model net args.hidden_units mapping
    let st := train m (cfgOfArgs args nBatches nValid valAcc)
    ([Event.mkdirP args.model_dir, Event.loadData args.data_dir,
      Event.buildModelCall args.arch] ++ st.events, some st)
  else
    ([Event.usageExit], none)

/-- Shape of a save event used when refuting the checkpoint class-count
invariant: the entry count of the recorded mapping paired with the output
width of the recorded head. -/
def saveShape : Event → ℕ × ℕ
  | Event.save _ ckpt _ => ((ckptMapping ckpt).length, ckptHeadOutDim ckpt)
  | _ => (0, 0)

/-- Loop invariant of the batch loop: the model is in training mode between
batches, the validation-pass count equals the cumulative step count divided
by `print_every`, the `accuracy` local holds the result of the most recent
validation pass (and is unassigned before the first), and every event
emitted so far obeys the mode discipline. -/
def Inv (cfg : TrainConfig) (st : TrainState) : Prop :=
  st.mode = Mode.train ∧
  st.valCount = st.steps / cfg.printEvery ∧
  st.accuracy = (if st.valCount = 0 then none
                 else some (cfg.valAcc (st.valCount - 1))) ∧
  st.events.all modeDisciplineB = true

/-- Concrete pretrained-network fixture used by the witness runs below. -/
def netFix : PretrainedNet := ⟨[true], [true], LastChild.seqChild 25088⟩

/-- Concrete one-class model fixture. -/
def modelFixA : TModel := build_model netFix 4 (classToIdx [("a")])

/-- Concrete two-class model fixture. -/
def modelFixAB : TModel := build_model netFix 4 (classToIdx [("a"), ("b")])

/-- One epoch, validation after every step, two batches, accuracy oracle
returning the pass index: exhibits an epoch with two validation passes. -/
def cfgFixPasses : TrainConfig :=
  ⟨1, 1, 2, 1, fun k => (k : ℚ), (""), ("vgg16")⟩

/-- One epoch, validation after every step, one batch, zero accuracy, model
directory empty: a run that completes and writes one checkpoint. -/
def cfgFixOnePass : TrainConfig :=
  ⟨1, 1, 1, 1, fun _ => 0, (""), ("vgg16")⟩

/-- One epoch of two batches with `print_every` 20: the loader is exhausted
before the first periodic validation. -/
def cfgFixShort : TrainConfig :=
  ⟨1, 20, 2, 1, fun _ => 0, ("models"), ("vgg16")⟩

/-- One epoch, one batch, validation every step with accuracy one, the
default `models` output directory: the first epoch improves on the initial
best accuracy of zero. -/
def cfgFixBest : TrainConfig :=
  ⟨1, 1, 1, 1, fun _ => 1, ("models"), ("vgg16")⟩

/-- Concrete parsed-argument fixture with a valid architecture. -/
def argsFix : Args := ⟨("data"), ("vgg16"), 4, 1/1000, 1, false, ("models")⟩

/-! Supporting lemmas. -/

theorem length_classToIdx (classes : List String) :
    (classToIdx classes).length = classes.length := by
  simp [classToIdx, List.length_insertionSort, List.enum_length]

theorem classifierOutDim_buildClassifier (inF hiddenUnits : ℕ) :
    classifierOutDim (buildClassifier inF hiddenUnits) = 102 := rfl

theorem listMax_map_of_strictMono {α β : Type _} [LinearOrder α] [LinearOrder β]
    (f : α → β) (hf : StrictMono f) (l : List α) :
    listMax (l.map f) = (listMax l).map f := by
  induction l with
  | nil => rfl
  | cons x xs ih =>
    cases h : listMax xs with
    | none =>
      have h2 : listMax (xs.map f) = none := by rw [ih, h]; rfl
      simp [listMax, h, h2]
    | some m =>
      have h2 : listMax (xs.map f) = some (f m) := by rw [ih, h]; rfl
      simp [listMax, h, h2, hf.monotone.map_max]

/-- The index of the per-row maximum is unchanged by applying a strictly
monotone map (such as the exponential turning the head's log-probabilities
into probabilities) to every score, so the top-1 prediction the script takes
on `exp(output)` is `argmaxIdx` of the raw output scores. -/
theorem argmaxIdx_map_of_strictMono {α β : Type _} [LinearOrder α] [LinearOrder β]
    (f : α → β) (hf : StrictMono f) (l : List α) :
    argmaxIdx (l.map f) = argmaxIdx l := by
  induction l with
  | nil => rfl
  | cons x xs ih =>
    cases h : listMax xs with
    | none =>
      have h2 : listMax (xs.map f) = none := by
        rw [listMax_map_of_strictMono f hf, h]; rfl
      simp [argmaxIdx, h, h2]
    | some m =>
      have h2 : listMax (xs.map f) = some (f m) := by
        rw [listMax_map_of_strictMono f hf, h]; rfl
      simp [argmaxIdx, h, h2, hf.lt_iff_lt, ih]

theorem validation_eq_sums (criterion : List Sample → ℚ)
    (loader : List (List Sample)) :
    validation criterion loader
      = ((loader.map criterion).sum, (loader.map batchAccuracy).sum) := by
  suffices h : ∀ p : ℚ × ℚ,
      loader.foldl (fun acc b => (acc.1 + criterion b, acc.2 + batchAccuracy b)) p
        = (p.1 + (loader.map criterion).sum, p.2 + (loader.map batchAccuracy).sum) by
    simpa [validation] using h (0, 0)
  induction loader with
  | nil => intro p; simp
  | cons b bs ih => intro p; simp [ih, add_assoc]

/-! Claim theorems on validation metrics, model construction and argument
parsing. -/

/-- C7: the validation accuracy logged by the training loop equals the mean
over validation batches of the per-batch fraction of samples whose top-1
prediction equals the true label, multiplied by 100, and the logged
validation loss equals the sum of the per-batch criterion losses divided by
the number of validation batches. -/
theorem logged_metrics_are_batch_means (criterion : List Sample → ℚ)
    (validloader : List (List Sample)) :
    loggedValidationAccuracy criterion validloader
      = listMean (validloader.map (fun b =>
          ((b.filter (fun s => argmaxIdx s.output == s.label)).length : ℚ)
            / (b.length : ℚ))) * 100 ∧
    loggedValidationLoss criterion validloader
      = (validloader.map criterion).sum / (validloader.length : ℚ) := by
  have hfun : batchAccuracy = fun b : List Sample =>
      ((b.filter (fun s => argmaxIdx s.output == s.label)).length : ℚ)
        / (b.length : ℚ) := rfl
  constructor
  · rw [← hfun]
    simp [loggedValidationAccuracy, validation_eq_sums, listMean]
  · simp [loggedValidationLoss, validation_eq_sums]

/-- C5: after `build_model` returns, gradient tracking is disabled on every
backbone parameter and enabled on every parameter of the new classifier
head, and the optimizer built in `main` receives exactly the head's
parameters. -/
theorem build_model_trains_head_only (net : PretrainedNet) (hidden_units : ℕ)
    (mapping : List (String × ℕ)) :
    ((build_model net hidden_units mapping).backboneParams.all
        (fun b => b == false) = true) ∧
    ((build_model net hidden_units mapping).classifierParams.all
        (fun b => b == true) = true) ∧
    optimizerParams (build_model net hidden_units mapping)
      = (build_model net hidden_units mapping).classifierParams := by
  refine ⟨?_, rfl, rfl⟩
  simp [build_model, List.all_map, Function.comp]

/-- C6: for every supported architecture and every hidden width, the head
attached by `build_model` is linear (discovered width to hidden width),
rectified-linear, dropout with probability one half, linear (hidden width to
102), log-softmax, so its output dimensionality is the fixed class count 102
regardless of backbone. -/
theorem build_model_head_structure (arch : String) (net : PretrainedNet)
    (hidden_units : ℕ) (mapping : List (String × ℕ))
    (harch : arch ∈ VALID_ARCH_CHOICES) (hnet : IsTorchvisionModel arch net) :
    (build_model net hidden_units mapping).classifier
      = [(("fc1"), Layer.linear (archInputFeatures arch) hidden_units),
         (("relu"), Layer.relu),
         (("dropout"), Layer.dropout (1/2)),
         (("fc2"), Layer.linear hidden_units 102),
         (("output"), Layer.logSoftmax 1)] ∧
    classifierOutDim (build_model net hidden_units mapping).classifier = 102 := by
  have hlast := hnet.1
  simp only [VALID_ARCH_CHOICES, List.mem_cons, List.mem_singleton,
    List.not_mem_nil, or_false] at harch
  rcases harch with h | h | h <;> subst h <;>
    simp [archLastChild] at hlast <;>
    simp [build_model, buildClassifier, archInputFeatures, ← hlast,
      input_features, classifierOutDim]

theorem build_model_head_structure_witness :
    (("vgg16") ∈ VALID_ARCH_CHOICES) ∧
    IsTorchvisionModel ("vgg16") ⟨[true], [true], LastChild.seqChild 25088⟩ ∧
    ((build_model ⟨[true], [true], LastChild.seqChild 25088⟩ 4096 []).classifier
      = [(("fc1"), Layer.linear (archInputFeatures ("vgg16")) 4096),
         (("relu"), Layer.relu),
         (("dropout"), Layer.dropout (1/2)),
         (("fc2"), Layer.linear 4096 102),
         (("output"), Layer.logSoftmax 1)] ∧
     classifierOutDim (build_model ⟨[true], [true], LastChild.seqChild 25088⟩
        4096 []).classifier = 102) :=
  ⟨by decide, ⟨by decide, by decide, by decide⟩,
    build_model_head_structure ("vgg16") ⟨[true], [true], LastChild.seqChild 25088⟩
      4096 [] (by decide) ⟨by decide, by decide, by decide⟩⟩

/-- C9: an `--arch` value outside the enumerated set makes the argument
parser exit with a usage error before the data is loaded or the model is
built: the process trace contains only the usage exit. -/
theorem invalid_arch_rejected_first (args : Args) (net : PretrainedNet)
    (classes : List String) (nB nV : ℕ) (vA : ℕ → ℚ)
    (h : args.arch ∉ VALID_ARCH_CHOICES) :
    mainRun args net classes nB nV vA = ([Event.usageExit], none) := by
  simp [mainRun, h]

theorem invalid_arch_rejected_first_witness :
    (("resnet50") ∉ VALID_ARCH_CHOICES) ∧
    mainRun ⟨("data"), ("resnet50"), 4096, 1/1000, 3, false, ("models")⟩
        ⟨[true], [true], LastChild.seqChild 25088⟩ [("a")] 5 2 (fun _ => 0)
      = ([Event.usageExit], none) :=
  ⟨by decide,
    invalid_arch_rejected_first
      ⟨("data"), ("resnet50"), 4096, 1/1000, 3, false, ("models")⟩
      ⟨[true], [true], LastChild.seqChild 25088⟩ [("a")] 5 2 (fun _ => 0)
      (by decide)⟩

/-! Structural lemmas about the training loop. -/

theorem oneBatch_steps (cfg : TrainConfig) (st : TrainState) :
    (oneBatch cfg st).steps = st.steps + 1 := by
  unfold oneBatch; split <;> rfl

theorem oneBatch_error (cfg : TrainConfig) (st : TrainState) :
    (oneBatch cfg st).error = st.error := by
  unfold oneBatch; split <;> rfl

theorem oneBatch_fs (cfg : TrainConfig) (st : TrainState) :
    (oneBatch cfg st).fs = st.fs := by
  unfold oneBatch; split <;> rfl

theorem oneBatch_bestAccuracy (cfg : TrainConfig) (st : TrainState) :
    (oneBatch cfg st).bestAccuracy = st.bestAccuracy := by
  unfold oneBatch; split <;> rfl

theorem oneBatch_events (cfg : TrainConfig) (st : TrainState) :
    ∃ tail : List Event, (oneBatch cfg st).events = st.events ++ tail ∧
      ∀ e ∈ tail, (∃ mo, e = Event.optStep mo) ∨
        (∃ mo g a, e = Event.valPass mo g a) := by
  unfold oneBatch
  split
  · exact ⟨[Event.optStep st.mode,
      Event.valPass Mode.eval false (cfg.valAcc st.valCount)], rfl, by simp⟩
  · exact ⟨[Event.optStep st.mode], rfl, by simp⟩

theorem inv_oneBatch (cfg : TrainConfig) (st : TrainState) (h : Inv cfg st) :
    Inv cfg (oneBatch cfg st) := by
  obtain ⟨hm, hv, ha, he⟩ := h
  unfold oneBatch
  by_cases hmod : (st.steps + 1) % cfg.printEvery = 0
  · rw [if_pos hmod]
    have hdvd : cfg.printEvery ∣ st.steps + 1 := Nat.dvd_of_mod_eq_zero hmod
    refine ⟨rfl, ?_, by simp, ?_⟩
    · show st.valCount + 1 = (st.steps + 1) / cfg.printEvery
      rw [Nat.succ_div_of_dvd hdvd, hv]
    · show (st.events ++ _).all modeDisciplineB = true
      simp [List.all_append, he, modeDisciplineB, hm]
  · rw [if_neg hmod]
    have hndvd : ¬ cfg.printEvery ∣ st.steps + 1 :=
      fun hd => hmod (Nat.mod_eq_zero_of_dvd hd)
    refine ⟨hm, ?_, ha, ?_⟩
    · show st.valCount = (st.steps + 1) / cfg.printEvery
      rw [Nat.succ_div_of_not_dvd hndvd, hv]
    · show (st.events ++ _).all modeDisciplineB = true
      simp [List.all_append, he, modeDisciplineB, hm]

theorem runBatches_steps (cfg : TrainConfig) (n : ℕ) (st : TrainState) :
    (runBatches cfg n st).steps = st.steps + n := by
  induction n generalizing st with
  | zero => rfl
  | succ k ih => rw [runBatches, ih, oneBatch_steps]; omega

theorem runBatches_error (cfg : TrainConfig) (n : ℕ) (st : TrainState) :
    (runBatches cfg n st).error = st.error := by
  induction n generalizing st with
  | zero => rfl
  | succ k ih => rw [runBatches, ih, oneBatch_error]

theorem runBatches_fs (cfg : TrainConfig) (n : ℕ) (st : TrainState) :
    (runBatches cfg n st).fs = st.fs := by
  induction n generalizing st with
  | zero => rfl
  | succ k ih => rw [runBatches, ih, oneBatch_fs]

theorem runBatches_bestAccuracy (cfg : TrainConfig) (n : ℕ) (st : TrainState) :
    (runBatches cfg n st).bestAccuracy = st.bestAccuracy := by
  induction n generalizing st with
  | zero => rfl
  | succ k ih => rw [runBatches, ih, oneBatch_bestAccuracy]

theorem inv_runBatches (cfg : TrainConfig) (n : ℕ) (st : TrainState)
    (h : Inv cfg st) : Inv cfg (runBatches cfg n st) := by
  induction n generalizing st with
  | zero => exact h
  | succ k ih => exact ih _ (inv_oneBatch cfg st h)

theorem runBatches_events (cfg : TrainConfig) (n : ℕ) (st : TrainState) :
    ∃ tail : List Event, (runBatches cfg n st).events = st.events ++ tail ∧
      ∀ e ∈ tail, (∃ mo, e = Event.optStep mo) ∨
        (∃ mo g a, e = Event.valPass mo g a) := by
  induction n generalizing st with
  | zero => exact ⟨[], by simp [runBatches], by simp⟩
  | succ k ih =>
    obtain ⟨t1, h1, hp1⟩ := oneBatch_events cfg st
    obtain ⟨t2, h2, hp2⟩ := ih (oneBatch cfg st)
    refine ⟨t1 ++ t2, ?_, ?_⟩
    · rw [runBatches, h2, h1, List.append_assoc]
    · intro e hmem
      rcases List.mem_append.1 hmem with hmem | hmem
      · exact hp1 e hmem
      · exact hp2 e hmem

theorem save_checkpoint_core (d : String) (c : Checkpoint) (b : Bool)
    (st : TrainState) :
    (save_checkpoint d c b st).steps = st.steps ∧
    (save_checkpoint d c b st).valCount = st.valCount ∧
    (save_checkpoint d c b st).accuracy = st.accuracy ∧
    (save_checkpoint d c b st).mode = st.mode ∧
    (save_checkpoint d c b st).bestAccuracy = st.bestAccuracy := by
  simp only [save_checkpoint]
  split
  · split
    · exact ⟨rfl, rfl, rfl, rfl, rfl⟩
    · exact ⟨rfl, rfl, rfl, rfl, rfl⟩
  · exact ⟨rfl, rfl, rfl, rfl, rfl⟩

theorem save_checkpoint_events (d : String) (c : Checkpoint) (b : Bool)
    (st : TrainState) :
    ∃ tail : List Event,
      (save_checkpoint d c b st).events
        = st.events ++ Event.save (ospJoin d ("checkpoint.pth")) c b :: tail ∧
      ∀ e ∈ tail, ∃ s dst, e = Event.copy s dst := by
  simp only [save_checkpoint]
  split
  · split
    · refine ⟨[Event.copy ("checkpoint.pth") (ospJoin d ("model_best.pth"))],
        ?_, by simp⟩
      simp
    · exact ⟨[], by simp, by simp⟩
  · exact ⟨[], by simp, by simp⟩

theorem epochEndStep_eq_none (m : TModel) (cfg : TrainConfig) (st : TrainState)
    (h : st.accuracy = none) :
    epochEndStep m cfg st = { st with error := some TrainErr.unboundAccuracy } := by
  unfold epochEndStep
  rw [h]

theorem epochEndStep_eq_some (m : TModel) (cfg : TrainConfig) (st : TrainState)
    (a : ℚ) (h : st.accuracy = some a) :
    epochEndStep m cfg st
      = save_checkpoint cfg.modelDir (mkCheckpoint m cfg (max a st.bestAccuracy))
          (decide (st.bestAccuracy < a))
          { st with bestAccuracy := max a st.bestAccuracy,
                    events := st.events
                      ++ [Event.epochEnd a (decide (st.bestAccuracy < a))] } := by
  unfold epochEndStep
  rw [h]

theorem epochEndStep_core (m : TModel) (cfg : TrainConfig) (st : TrainState) :
    (epochEndStep m cfg st).steps = st.steps ∧
    (epochEndStep m cfg st).valCount = st.valCount ∧
    (epochEndStep m cfg st).accuracy = st.accuracy ∧
    (epochEndStep m cfg st).mode = st.mode := by
  cases hacc : st.accuracy with
  | none =>
    rw [epochEndStep_eq_none m cfg st hacc]
    exact ⟨rfl, rfl, hacc, rfl⟩
  | some a =>
    rw [epochEndStep_eq_some m cfg st a hacc]
    exact ⟨(save_checkpoint_core _ _ _ _).1, (save_checkpoint_core _ _ _ _).2.1,
      ((save_checkpoint_core _ _ _ _).2.2.1).trans hacc,
      (save_checkpoint_core _ _ _ _).2.2.2.1⟩

theorem epochEndStep_events_of_some (m : TModel) (cfg : TrainConfig)
    (st : TrainState) (a : ℚ) (h : st.accuracy = some a) :
    ∃ tail : List Event,
      (epochEndStep m cfg st).events
        = st.events ++ Event.epochEnd a (decide (st.bestAccuracy < a))
            :: Event.save (ospJoin cfg.modelDir ("checkpoint.pth"))
                 (mkCheckpoint m cfg (max a st.bestAccuracy))
                 (decide (st.bestAccuracy < a)) :: tail ∧
      ∀ e ∈ tail, ∃ s dst, e = Event.copy s dst := by
  rw [epochEndStep_eq_some m cfg st a h]
  obtain ⟨tail, hev, hp⟩ := save_checkpoint_events cfg.modelDir
    (mkCheckpoint m cfg (max a st.bestAccuracy)) (decide (st.bestAccuracy < a))
    { st with bestAccuracy := max a st.bestAccuracy,
              events := st.events ++ [Event.epochEnd a (decide (st.bestAccuracy < a))] }
  refine ⟨tail, ?_, hp⟩
  rw [hev]
  simp

theorem epochEndStep_events_of_none (m : TModel) (cfg : TrainConfig)
    (st : TrainState) (h : st.accuracy = none) :
    (epochEndStep m cfg st).events = st.events ∧
    (epochEndStep m cfg st).error = some TrainErr.unboundAccuracy := by
  rw [epochEndStep_eq_none m cfg st h]
  exact ⟨rfl, rfl⟩

theorem inv_epochEndStep (m : TModel) (cfg : TrainConfig) (st : TrainState)
    (h : Inv cfg st) : Inv cfg (epochEndStep m cfg st) := by
  obtain ⟨hm, hv, ha, he⟩ := h
  obtain ⟨h1, h2, h3, h4⟩ := epochEndStep_core m cfg st
  refine ⟨by rw [h4, hm], by rw [h2, h1, hv], by rw [h3, h2, ha], ?_⟩
  cases hacc : st.accuracy with
  | none =>
    rw [(epochEndStep_events_of_none m cfg st hacc).1]
    exact he
  | some a =>
    obtain ⟨tail, hev, hp⟩ := epochEndStep_events_of_some m cfg st a hacc
    rw [hev, List.all_eq_true]
    intro e hmem
    simp only [List.mem_append, List.mem_cons] at hmem
    rcases hmem with hmem | rfl | rfl | hmem
    · exact List.all_eq_true.1 he e hmem
    · rfl
    · rfl
    · obtain ⟨s, dst, rfl⟩ := hp e hmem
      rfl

theorem runEpoch_of_error (m : TModel) (cfg : TrainConfig) (st : TrainState)
    (h : st.error.isSome) : runEpoch m cfg st = st := by
  simp [runEpoch, h]

theorem runEpochs_of_error (m : TModel) (cfg : TrainConfig) (n : ℕ)
    (st : TrainState) (h : st.error.isSome) : runEpochs m cfg n st = st := by
  induction n with
  | zero => rfl
  | succ k ih => rw [runEpochs, runEpoch_of_error m cfg st h, ih]

theorem runEpoch_of_error_none (m : TModel) (cfg : TrainConfig) (st : TrainState)
    (h : st.error = none) :
    runEpoch m cfg st = epochEndStep m cfg (runBatches cfg cfg.nBatches st) := by
  simp [runEpoch, h]

theorem error_none_of_runEpoch (m : TModel) (cfg : TrainConfig) (st : TrainState)
    (h : (runEpoch m cfg st).error = none) : st.error = none := by
  cases herr : st.error with
  | none => rfl
  | some e =>
    rw [runEpoch_of_error m cfg st (by rw [herr]; rfl)] at h
    rw [herr] at h
    exact absurd h (by simp)

theorem error_none_of_runEpochs (m : TModel) (cfg : TrainConfig) (n : ℕ)
    (st : TrainState) (h : (runEpochs m cfg n st).error = none) :
    st.error = none := by
  induction n generalizing st with
  | zero => exact h
  | succ k ih =>
    rw [runEpochs] at h
    exact error_none_of_runEpoch m cfg st (ih _ h)

theorem runEpochs_succ' (m : TModel) (cfg : TrainConfig) (n : ℕ) (st : TrainState) :
    runEpochs m cfg (n + 1) st = runEpoch m cfg (runEpochs m cfg n st) := by
  induction n generalizing st with
  | zero => rfl
  | succ k ih =>
    rw [runEpochs, ih, runEpochs]

theorem inv_runEpoch (m : TModel) (cfg : TrainConfig) (st : TrainState)
    (h : Inv cfg st) : Inv cfg (runEpoch m cfg st) := by
  unfold runEpoch
  split
  · exact h
  · exact inv_epochEndStep m cfg _ (inv_runBatches cfg cfg.nBatches st h)

theorem inv_runEpochs (m : TModel) (cfg : TrainConfig) (n : ℕ) (st : TrainState)
    (h : Inv cfg st) : Inv cfg (runEpochs m cfg n st) := by
  induction n generalizing st with
  | zero => exact h
  | succ k ih => exact ih _ (inv_runEpoch m cfg st h)

theorem inv_trainInit (cfg : TrainConfig) : Inv cfg trainInit := by
  refine ⟨rfl, by simp [trainInit], by simp [trainInit], rfl⟩

theorem epochEndStep_steps (m : TModel) (cfg : TrainConfig) (st : TrainState) :
    (epochEndStep m cfg st).steps = st.steps := (epochEndStep_core m cfg st).1

theorem runEpochs_steps_of_error_none (m : TModel) (cfg : TrainConfig) (n : ℕ)
    (st : TrainState) (h : (runEpochs m cfg n st).error = none) :
    (runEpochs m cfg n st).steps = st.steps + n * cfg.nBatches := by
  induction n generalizing st with
  | zero => simp [runEpochs]
  | succ k ih =>
    rw [runEpochs] at h ⊢
    have hst : st.error = none :=
      error_none_of_runEpoch m cfg st (error_none_of_runEpochs m cfg k _ h)
    rw [ih _ h, runEpoch_of_error_none m cfg st hst, epochEndStep_steps,
      runBatches_steps]
    ring

theorem epochEndsOf_runBatches (cfg : TrainConfig) (n : ℕ) (st : TrainState) :
    epochEndsOf (runBatches cfg n st).events = epochEndsOf st.events := by
  obtain ⟨tail, hev, hp⟩ := runBatches_events cfg n st
  have htail : tail.filter isEpochEndEvent = [] :=
    List.filter_eq_nil_iff.2 (by
      intro x hx
      rcases hp x hx with ⟨mo, rfl⟩ | ⟨mo, g, a, rfl⟩ <;> simp [isEpochEndEvent])
  rw [hev]
  unfold epochEndsOf
  rw [List.filter_append, htail, List.append_nil]

theorem savesOf_runBatches (cfg : TrainConfig) (n : ℕ) (st : TrainState) :
    savesOf (runBatches cfg n st).events = savesOf st.events := by
  obtain ⟨tail, hev, hp⟩ := runBatches_events cfg n st
  have htail : tail.filter isSaveEvent = [] :=
    List.filter_eq_nil_iff.2 (by
      intro x hx
      rcases hp x hx with ⟨mo, rfl⟩ | ⟨mo, g, a, rfl⟩ <;> simp [isSaveEvent])
  rw [hev]
  unfold savesOf
  rw [List.filter_append, htail, List.append_nil]

theorem events_all_oneBatch (cfg : TrainConfig) (st : TrainState)
    (p : Event → Bool)
    (hopt : ∀ mo, p (Event.optStep mo) = true)
    (hval : ∀ mo g a, p (Event.valPass mo g a) = true)
    (h : st.events.all p = true) : (oneBatch cfg st).events.all p = true := by
  obtain ⟨tail, hev, hp⟩ := oneBatch_events cfg st
  rw [hev, List.all_append, h, Bool.true_and, List.all_eq_true]
  intro e hmem
  rcases hp e hmem with ⟨mo, rfl⟩ | ⟨mo, g, a, rfl⟩
  · exact hopt mo
  · exact hval mo g a

theorem events_all_runBatches (cfg : TrainConfig) (n : ℕ) (st : TrainState)
    (p : Event → Bool)
    (hopt : ∀ mo, p (Event.optStep mo) = true)
    (hval : ∀ mo g a, p (Event.valPass mo g a) = true)
    (h : st.events.all p = true) : (runBatches cfg n st).events.all p = true := by
  induction n generalizing st with
  | zero => exact h
  | succ k ih => exact ih _ (events_all_oneBatch cfg st p hopt hval h)

theorem events_all_epochEndStep (m : TModel) (cfg : TrainConfig) (st : TrainState)
    (p : Event → Bool)
    (hee : ∀ a b, p (Event.epochEnd a b) = true)
    (hcopy : ∀ s d, p (Event.copy s d) = true)
    (hsave : ∀ best isBest, p (Event.save (ospJoin cfg.modelDir ("checkpoint.pth"))
      (mkCheckpoint m cfg best) isBest) = true)
    (h : st.events.all p = true) : (epochEndStep m cfg st).events.all p = true := by
  cases hacc : st.accuracy with
  | none =>
    rw [(epochEndStep_events_of_none m cfg st hacc).1]
    exact h
  | some a =>
    obtain ⟨tail, hev, hp⟩ := epochEndStep_events_of_some m cfg st a hacc
    rw [hev, List.all_eq_true]
    intro e hmem
    simp only [List.mem_append, List.mem_cons] at hmem
    rcases hmem with hmem | rfl | rfl | hmem
    · exact List.all_eq_true.1 h e hmem
    · exact hee _ _
    · exact hsave _ _
    · obtain ⟨s, dst, rfl⟩ := hp e hmem
      exact hcopy _ _

theorem events_all_runEpochs (m : TModel) (cfg : TrainConfig) (n : ℕ)
    (st : TrainState) (p : Event → Bool)
    (hopt : ∀ mo, p (Event.optStep mo) = true)
    (hval : ∀ mo g a, p (Event.valPass mo g a) = true)
    (hee : ∀ a b, p (Event.epochEnd a b) = true)
    (hcopy : ∀ s d, p (Event.copy s d) = true)
    (hsave : ∀ best isBest, p (Event.save (ospJoin cfg.modelDir ("checkpoint.pth"))
      (mkCheckpoint m cfg best) isBest) = true)
    (h : st.events.all p = true) : (runEpochs m cfg n st).events.all p = true := by
  induction n generalizing st with
  | zero => exact h
  | succ k ih =>
    refine ih _ ?_
    unfold runEpoch
    split
    · exact h
    · exact events_all_epochEndStep m cfg _ p hee hcopy hsave
        (events_all_runBatches cfg cfg.nBatches st p hopt hval h)

theorem events_all_train (m : TModel) (cfg : TrainConfig) (p : Event → Bool)
    (hopt : ∀ mo, p (Event.optStep mo) = true)
    (hval : ∀ mo g a, p (Event.valPass mo g a) = true)
    (hee : ∀ a b, p (Event.epochEnd a b) = true)
    (hcopy : ∀ s d, p (Event.copy s d) = true)
    (hsave : ∀ best isBest, p (Event.save (ospJoin cfg.modelDir ("checkpoint.pth"))
      (mkCheckpoint m cfg best) isBest) = true) :
    (train m cfg).events.all p = true :=
  events_all_runEpochs m cfg cfg.epochs trainInit p hopt hval hee hcopy hsave rfl

theorem ckptMapping_mkCheckpoint (m : TModel) (cfg : TrainConfig) (best : ℚ) :
    ckptMapping (mkCheckpoint m cfg best) = m.class_idx_mapping := rfl

theorem ckptHeadOutDim_mkCheckpoint (m : TModel) (cfg : TrainConfig) (best : ℚ) :
    ckptHeadOutDim (mkCheckpoint m cfg best) = classifierOutDim m.classifier := rfl

theorem mkCheckpoint_keys (m : TModel) (cfg : TrainConfig) (best : ℚ) :
    (mkCheckpoint m cfg best).map Prod.fst = checkpointSchema := rfl

/-! Claim theorems on the training loop. -/

/-- C8: during training, every optimizer step runs with the model in
training mode, every validation pass runs with the model in evaluation mode
and gradient tracking disabled, and (for a run that completes) the number of
validation passes equals the cumulative step count divided by
`print_every`, i.e. one pass whenever the cumulative step count reaches a
multiple of `print_every`. -/
theorem train_mode_discipline (m : TModel) (cfg : TrainConfig)
    (herr : (train m cfg).error = none) :
    (train m cfg).events.all modeDisciplineB = true ∧
    (train m cfg).steps = cfg.epochs * cfg.nBatches ∧
    (train m cfg).valCount = cfg.epochs * cfg.nBatches / cfg.printEvery := by
  have hinv : Inv cfg (train m cfg) :=
    inv_runEpochs m cfg cfg.epochs trainInit (inv_trainInit cfg)
  have hsteps : (train m cfg).steps = cfg.epochs * cfg.nBatches := by
    have h0 := runEpochs_steps_of_error_none m cfg cfg.epochs trainInit herr
    simpa [trainInit] using h0
  exact ⟨hinv.2.2.2, hsteps, hinv.2.1.trans (by rw [hsteps])⟩

theorem train_mode_discipline_witness :
    ((train (build_model ⟨[true], [true], LastChild.seqChild 25088⟩ 4
          (classToIdx [("a"), ("b")]))
        { epochs := 1, printEvery := 1, nBatches := 2, nValid := 1,
          valAcc := fun _ => 0, modelDir := (""), arch := ("vgg16") }).error = none) ∧
    ((train (build_model ⟨[true], [true], LastChild.seqChild 25088⟩ 4
          (classToIdx [("a"), ("b")]))
        { epochs := 1, printEvery := 1, nBatches := 2, nValid := 1,
          valAcc := fun _ => 0, modelDir := (""), arch := ("vgg16") }).events.all
        modeDisciplineB = true ∧
      (train (build_model ⟨[true], [true], LastChild.seqChild 25088⟩ 4
          (classToIdx [("a"), ("b")]))
        { epochs := 1, printEvery := 1, nBatches := 2, nValid := 1,
          valAcc := fun _ => 0, modelDir := (""), arch := ("vgg16") }).steps = 1 * 2 ∧
      (train (build_model ⟨[true], [true], LastChild.seqChild 25088⟩ 4
          (classToIdx [("a"), ("b")]))
        { epochs := 1, printEvery := 1, nBatches := 2, nValid := 1,
          valAcc := fun _ => 0, modelDir := (""), arch := ("vgg16") }).valCount
        = 1 * 2 / 1) :=
  ⟨by decide,
    train_mode_discipline
      (build_model ⟨[true], [true], LastChild.seqChild 25088⟩ 4
        (classToIdx [("a"), ("b")]))
      { epochs := 1, printEvery := 1, nBatches := 2, nValid := 1,
        valAcc := fun _ => 0, modelDir := (""), arch := ("vgg16") }
      (by decide)⟩

/-- C4: when the training loader yields fewer than `print_every` batches per
epoch, no validation pass ever runs in the first epoch, so the epoch-end
read of the `accuracy` local raises an unbound-variable error and no
checkpoint is written. -/
theorem short_epoch_unbound_accuracy (m : TModel) (cfg : TrainConfig)
    (hb : cfg.nBatches < cfg.printEvery) (he : 1 ≤ cfg.epochs) :
    (train m cfg).error = some TrainErr.unboundAccuracy ∧
    savesOf (train m cfg).events = [] := by
  obtain ⟨k, hk⟩ : ∃ k, cfg.epochs = k + 1 := ⟨cfg.epochs - 1, by omega⟩
  have hrb := inv_runBatches cfg cfg.nBatches trainInit (inv_trainInit cfg)
  have hsteps : (runBatches cfg cfg.nBatches trainInit).steps = cfg.nBatches := by
    rw [runBatches_steps]
    simp [trainInit]
  have hvc : (runBatches cfg cfg.nBatches trainInit).valCount = 0 := by
    rw [hrb.2.1, hsteps, Nat.div_eq_of_lt hb]
  have hacc : (runBatches cfg cfg.nBatches trainInit).accuracy = none := by
    rw [hrb.2.2.1, hvc]
    simp
  have h1 : runEpoch m cfg trainInit
      = epochEndStep m cfg (runBatches cfg cfg.nBatches trainInit) :=
    runEpoch_of_error_none m cfg trainInit rfl
  obtain ⟨hev, herr⟩ := epochEndStep_events_of_none m cfg _ hacc
  have h3 : (runEpoch m cfg trainInit).error = some TrainErr.unboundAccuracy := by
    rw [h1]
    exact herr
  have h4 : runEpochs m cfg cfg.epochs trainInit = runEpoch m cfg trainInit := by
    rw [hk, runEpochs]
    exact runEpochs_of_error m cfg k _ (by rw [h3]; rfl)
  constructor
  · show (runEpochs m cfg cfg.epochs trainInit).error = _
    rw [h4]
    exact h3
  · show savesOf (runEpochs m cfg cfg.epochs trainInit).events = []
    rw [h4, h1, hev, savesOf_runBatches]
    rfl

theorem short_epoch_unbound_accuracy_witness :
    ((2 : ℕ) < 20) ∧ ((1 : ℕ) ≤ 1) ∧
    ((train (build_model ⟨[true], [true], LastChild.seqChild 25088⟩ 4
          (classToIdx [("a")]))
        { epochs := 1, printEvery := 20, nBatches := 2, nValid := 1,
          valAcc := fun _ => 0, modelDir := ("models"), arch := ("vgg16") }).error
        = some TrainErr.unboundAccuracy ∧
      savesOf (train (build_model ⟨[true], [true], LastChild.seqChild 25088⟩ 4
          (classToIdx [("a")]))
        { epochs := 1, printEvery := 20, nBatches := 2, nValid := 1,
          valAcc := fun _ => 0, modelDir := ("models"), arch := ("vgg16") }).events
        = []) :=
  ⟨by decide, by decide,
    short_epoch_unbound_accuracy
      (build_model ⟨[true], [true], LastChild.seqChild 25088⟩ 4 (classToIdx [("a")]))
      { epochs := 1, printEvery := 20, nBatches := 2, nValid := 1,
        valAcc := fun _ => 0, modelDir := ("models"), arch := ("vgg16") }
      (by decide) (by decide)⟩

/-- C2: for an epoch that is reached without a prior abort and inside which
at least one periodic validation pass runs, the epoch-end record compares
exactly the accuracy returned by the last validation pass that ran inside
that epoch (the pass numbered by the step count at epoch end divided by
`print_every`), and the checkpoint saved at that epoch end carries the best
accuracy updated with that same value; no accuracy is recomputed at epoch
end. -/
theorem epoch_end_uses_last_pass (m : TModel) (cfg : TrainConfig) (e : ℕ)
    (_he : e < cfg.epochs)
    (herr : (runEpochs m cfg e trainInit).error = none)
    (hpass : e * cfg.nBatches / cfg.printEvery
      < (e + 1) * cfg.nBatches / cfg.printEvery) :
    epochEndsOf (runEpochs m cfg (e + 1) trainInit).events
      = epochEndsOf (runEpochs m cfg e trainInit).events
        ++ [Event.epochEnd
              (cfg.valAcc ((e + 1) * cfg.nBatches / cfg.printEvery - 1))
              (decide ((runEpochs m cfg e trainInit).bestAccuracy
                < cfg.valAcc ((e + 1) * cfg.nBatches / cfg.printEvery - 1)))] ∧
    savesOf (runEpochs m cfg (e + 1) trainInit).events
      = savesOf (runEpochs m cfg e trainInit).events
        ++ [Event.save (ospJoin cfg.modelDir ("checkpoint.pth"))
              (mkCheckpoint m cfg
                (max (cfg.valAcc ((e + 1) * cfg.nBatches / cfg.printEvery - 1))
                  (runEpochs m cfg e trainInit).bestAccuracy))
              (decide ((runEpochs m cfg e trainInit).bestAccuracy
                < cfg.valAcc ((e + 1) * cfg.nBatches / cfg.printEvery - 1)))] := by
  set A : ℚ := cfg.valAcc ((e + 1) * cfg.nBatches / cfg.printEvery - 1) with hA
  set stPre : TrainState := runEpochs m cfg e trainInit with hstPre
  have hInvPre : Inv cfg stPre := inv_runEpochs m cfg e trainInit (inv_trainInit cfg)
  have hstepsPre : stPre.steps = e * cfg.nBatches := by
    have h0 := runEpochs_steps_of_error_none m cfg e trainInit herr
    rw [hstPre]
    simpa [trainInit] using h0
  set stB : TrainState := runBatches cfg cfg.nBatches stPre with hstB
  have hInvB : Inv cfg stB := inv_runBatches cfg cfg.nBatches stPre hInvPre
  have hstepsB : stB.steps = (e + 1) * cfg.nBatches := by
    rw [hstB, runBatches_steps, hstepsPre]
    ring
  have hvcB : stB.valCount = (e + 1) * cfg.nBatches / cfg.printEvery := by
    rw [hInvB.2.1, hstepsB]
  have hvc_ne : ¬ stB.valCount = 0 := by
    rw [hvcB]
    intro h0
    rw [h0] at hpass
    exact Nat.not_lt_zero _ hpass
  have haccB : stB.accuracy = some A := by
    rw [hInvB.2.2.1, if_neg hvc_ne, hvcB]
  have hbestB : stB.bestAccuracy = stPre.bestAccuracy := by
    rw [hstB, runBatches_bestAccuracy]
  have hstep : runEpochs m cfg (e + 1) trainInit = epochEndStep m cfg stB := by
    rw [runEpochs_succ', ← hstPre, runEpoch_of_error_none m cfg stPre herr, hstB]
  obtain ⟨tail, hev, hp⟩ := epochEndStep_events_of_some m cfg stB A haccB
  rw [hbestB] at hev
  have htail1 : tail.filter isEpochEndEvent = [] :=
    List.filter_eq_nil_iff.2 (by
      intro x hx
      obtain ⟨s, d, rfl⟩ := hp x hx
      simp [isEpochEndEvent])
  have htail2 : tail.filter isSaveEvent = [] :=
    List.filter_eq_nil_iff.2 (by
      intro x hx
      obtain ⟨s, d, rfl⟩ := hp x hx
      simp [isSaveEvent])
  have hfiltB1 : epochEndsOf stB.events = epochEndsOf stPre.events := by
    rw [hstB, epochEndsOf_runBatches]
  have hfiltB2 : savesOf stB.events = savesOf stPre.events := by
    rw [hstB, savesOf_runBatches]
  constructor
  · rw [hstep, hev]
    unfold epochEndsOf at hfiltB1 ⊢
    rw [List.filter_append, List.filter_cons_of_pos (by rfl),
      List.filter_cons_of_neg (by simp [isEpochEndEvent]), htail1, hfiltB1]
  · rw [hstep, hev]
    unfold savesOf at hfiltB2 ⊢
    rw [List.filter_append, List.filter_cons_of_neg (by simp [isSaveEvent]),
      List.filter_cons_of_pos (by rfl), htail2, hfiltB2]

theorem epoch_end_uses_last_pass_witness :
    (0 < cfgFixPasses.epochs) ∧
    ((runEpochs modelFixA cfgFixPasses 0 trainInit).error = none) ∧
    (0 * cfgFixPasses.nBatches / cfgFixPasses.printEvery
      < (0 + 1) * cfgFixPasses.nBatches / cfgFixPasses.printEvery) ∧
    (epochEndsOf (runEpochs modelFixA cfgFixPasses (0 + 1) trainInit).events
      = epochEndsOf (runEpochs modelFixA cfgFixPasses 0 trainInit).events
        ++ [Event.epochEnd
              (cfgFixPasses.valAcc
                ((0 + 1) * cfgFixPasses.nBatches / cfgFixPasses.printEvery - 1))
              (decide ((runEpochs modelFixA cfgFixPasses 0 trainInit).bestAccuracy
                < cfgFixPasses.valAcc
                  ((0 + 1) * cfgFixPasses.nBatches / cfgFixPasses.printEvery - 1)))]) := by
  refine ⟨by decide, by decide, by decide, ?_⟩
  exact (epoch_end_uses_last_pass modelFixA cfgFixPasses 0
    (by decide) (by decide) (by decide)).1

/-- C10 (amended): for every epoch that is reached without a prior abort and
at whose end the `accuracy` local has been assigned by some earlier
validation pass, exactly one new checkpoint write occurs; every checkpoint
of a run is written to `<model_dir>/checkpoint.pth` with exactly the seven
schema fields (epoch count, classifier, state dictionary, optimizer state,
class-to-index mapping, architecture name, best accuracy percentage); and
`main` creates the model directory before anything else, hence before any
checkpoint write. -/
theorem checkpoint_schema_on_completed_epoch
    (m : TModel) (cfg : TrainConfig) (e : ℕ)
    (args : Args) (net : PretrainedNet) (classes : List String)
    (nB nV : ℕ) (vA : ℕ → ℚ)
    (herr : (runEpochs m cfg e trainInit).error = none)
    (hacc : ¬ (runBatches cfg cfg.nBatches (runEpochs m cfg e trainInit)).accuracy
      = none)
    (hargs : args.arch ∈ VALID_ARCH_CHOICES) :
    (savesOf (runEpochs m cfg (e + 1) trainInit).events).length
        = (savesOf (runEpochs m cfg e trainInit).events).length + 1 ∧
    (runEpochs m cfg (e + 1) trainInit).events.all (saveWFB cfg.modelDir) = true ∧
    (mainRun args net classes nB nV vA).1.head?
      = some (Event.mkdirP args.model_dir) := by
  set stPre : TrainState := runEpochs m cfg e trainInit with hstPre
  set stB : TrainState := runBatches cfg cfg.nBatches stPre with hstB
  obtain ⟨a, haccB⟩ : ∃ a, stB.accuracy = some a := by
    cases h : stB.accuracy with
    | none => exact absurd h hacc
    | some a => exact ⟨a, rfl⟩
  have hstep : runEpochs m cfg (e + 1) trainInit = epochEndStep m cfg stB := by
    rw [runEpochs_succ', ← hstPre, runEpoch_of_error_none m cfg stPre herr, hstB]
  obtain ⟨tail, hev, hp⟩ := epochEndStep_events_of_some m cfg stB a haccB
  have htail2 : tail.filter isSaveEvent = [] :=
    List.filter_eq_nil_iff.2 (by
      intro x hx
      obtain ⟨s, d, rfl⟩ := hp x hx
      simp [isSaveEvent])
  refine ⟨?_, ?_, ?_⟩
  · rw [hstep, hev]
    unfold savesOf
    rw [List.filter_append, List.filter_cons_of_neg (by simp [isEpochEndEvent, isSaveEvent]),
      List.filter_cons_of_pos (by rfl), htail2]
    have h2 : stB.events.filter isSaveEvent = stPre.events.filter isSaveEvent := by
      rw [hstB]
      exact savesOf_runBatches cfg cfg.nBatches stPre
    rw [h2]
    simp
  · exact events_all_runEpochs m cfg (e + 1) trainInit (saveWFB cfg.modelDir)
      (fun mo => rfl) (fun mo g a => rfl) (fun a b => rfl) (fun s d => rfl)
      (fun best isBest => by simp [saveWFB, mkCheckpoint_keys]) rfl
  · simp [mainRun, hargs]

theorem checkpoint_schema_on_completed_epoch_witness :
    ((runEpochs modelFixA cfgFixOnePass 0 trainInit).error = none) ∧
    (¬ (runBatches cfgFixOnePass cfgFixOnePass.nBatches
        (runEpochs modelFixA cfgFixOnePass 0 trainInit)).accuracy = none) ∧
    (argsFix.arch ∈ VALID_ARCH_CHOICES) ∧
    ((savesOf (runEpochs modelFixA cfgFixOnePass (0 + 1) trainInit).events).length
        = (savesOf (runEpochs modelFixA cfgFixOnePass 0 trainInit).events).length + 1 ∧
      (runEpochs modelFixA cfgFixOnePass (0 + 1) trainInit).events.all
        (saveWFB cfgFixOnePass.modelDir) = true ∧
      (mainRun argsFix netFix [("a")] 1 1 (fun _ => 0)).1.head?
        = some (Event.mkdirP argsFix.model_dir)) := by
  refine ⟨by decide, by decide, by decide, ?_⟩
  exact checkpoint_schema_on_completed_epoch modelFixA cfgFixOnePass 0 argsFix
    netFix [("a")] 1 1 (fun _ => 0) (by decide) (by decide) (by decide)

/-- C10 is refuted as stated: in this run the single epoch completes all its
training batches (the step counter reaches `epochs * nBatches = 2`) and yet
no checkpoint file is ever written, because the epoch-end bookkeeping aborts
on the unassigned `accuracy` local before `save_checkpoint` is reached. -/
theorem checkpoint_missing_for_epoch_counterexample :
    (train modelFixAB cfgFixShort).steps
      = cfgFixShort.epochs * cfgFixShort.nBatches ∧
    savesOf (train modelFixAB cfgFixShort).events = [] := by decide

/-- C3 (amended): in every run started through `main`, every checkpoint's
recorded class-to-index mapping has exactly one entry per train-class
subdirectory, and the recorded classifier head always has output width 102;
the two numbers therefore agree exactly when the train split has 102 class
subdirectories. -/
theorem checkpoint_class_count (args : Args) (net : PretrainedNet)
    (classes : List String) (nB nV : ℕ) (vA : ℕ → ℚ)
    (hargs : args.arch ∈ VALID_ARCH_CHOICES) :
    (mainRun args net classes nB nV vA).1.all (saveClassCountB classes.length)
      = true := by
  have hall : (train (build_model net args.hidden_units (load_data_folder classes))
      (cfgOfArgs args nB nV vA)).events.all (saveClassCountB classes.length)
      = true := by
    refine events_all_train _ _ _ (fun mo => rfl) (fun mo g a => rfl)
      (fun a b => rfl) (fun s d => rfl) ?_
    intro best isBest
    simp [saveClassCountB, ckptMapping_mkCheckpoint, ckptHeadOutDim_mkCheckpoint,
      build_model, load_data_folder, length_classToIdx,
      classifierOutDim_buildClassifier]
  simp [mainRun, hargs, List.all_append, hall, saveClassCountB]

theorem checkpoint_class_count_witness :
    (argsFix.arch ∈ VALID_ARCH_CHOICES) ∧
    (mainRun argsFix netFix [("a")] 20 1 (fun _ => 0)).1.all
      (saveClassCountB ([("a")] : List String).length) = true := by
  refine ⟨by decide, ?_⟩
  exact checkpoint_class_count argsFix netFix [("a")] 20 1 (fun _ => 0) (by decide)

/-- C3 is refuted as stated: a run on a dataset with two train-class
subdirectories writes a checkpoint whose recorded mapping has 2 entries
while the recorded classifier head has output width 102, and 2 is not
102. -/
theorem class_count_mismatch_counterexample :
    ((savesOf (mainRun argsFix netFix [("daisy"), ("rose")] 20 1
        (fun _ => 0)).1).map saveShape) = [(2, 102)] ∧ (2 : ℕ) ≠ 102 := by
  decide

/-- C1 fails on the code because `save_checkpoint` copies from the bare file
name `checkpoint.pth` (resolved against the working directory) instead of
from `<model_dir>/checkpoint.pth`: in this run the first epoch's recorded
accuracy of one strictly exceeds the initial best accuracy zero (the
epoch-end record marks the epoch as best), the checkpoint is saved at
`models/checkpoint.pth`, yet `models/model_best.pth` is never written and
the run aborts with a missing copy source. -/
theorem best_copy_source_missing :
    ((0 : ℚ) < 1) ∧
    epochEndsOf (train modelFixAB cfgFixBest).events
      = [Event.epochEnd 1 true] ∧
    ((ospJoin ("models") ("checkpoint.pth")) ∈ (train modelFixAB cfgFixBest).fs) ∧
    (¬ (ospJoin ("models") ("model_best.pth")) ∈ (train modelFixAB cfgFixBest).fs) ∧
    (train modelFixAB cfgFixBest).error
      = some (TrainErr.copySrcMissing ("checkpoint.pth")) := by
  decide

end FlowersTrain
